import Mathlib

/-!
Verification of the slipsnisse core against its natural-language specification.

The development shallowly embeds the three core components:
- the Downstream Capability Manager (`src/mcp/client-manager.ts`),
- the Session Manager (`src/execution/session-manager.ts`),
- the Execution Engine (`src/execution/engine.ts`).

JavaScript strings are modelled as lists of characters (`Str`), JavaScript
`Map`s and plain-object records as association lists with explicit
`getKey`/`setKey`/`delKey` operations mirroring `Map.get`/`Map.set`/
`Map.delete`, and asynchronous external effects (transport connection,
downstream tool invocation, model inference) as explicit oracle functions
passed to the embedded operations.
-/

namespace Slipsnisse

/-- JavaScript strings, modelled as lists of UTF-16-ish characters. -/
abbrev Str := List Char

/-- `Map.get` / record lookup: first entry with the given key. -/
def getKey {κ α : Type} [DecidableEq κ] : List (κ × α) → κ → Option α
  | [], _ => none
  | e :: rest, k => if e.1 = k then some e.2 else getKey rest k

/-- `Map.set` / record assignment: overwrite in place, or append a new entry. -/
def setKey {κ α : Type} [DecidableEq κ] : List (κ × α) → κ → α → List (κ × α)
  | [], k, v => [(k, v)]
  | e :: rest, k, v => if e.1 = k then (k, v) :: rest else e :: setKey rest k v

/-- `Map.delete`: remove the entry with the given key, if present. -/
def delKey {κ α : Type} [DecidableEq κ] : List (κ × α) → κ → List (κ × α)
  | [], _ => []
  | e :: rest, k => if e.1 = k then rest else e :: delKey rest k

/-- `String.prototype.indexOf`: index of the first occurrence of `pat`
as a contiguous sub-sequence of `s`, as an `Option` instead of `-1`. -/
def idxOfSub (pat : Str) : Str → Option Nat
  | [] => if pat.isPrefixOf ([] : Str) then some 0 else none
  | c :: rest =>
    if pat.isPrefixOf (c :: rest) then some 0
    else (idxOfSub pat rest).map (· + 1)

/-- `String.prototype.includes`. -/
def containsSub (pat s : Str) : Bool := (idxOfSub pat s).isSome

/-- Decimal rendering of a number, for `${n}` template interpolation. -/
def natStr (n : Nat) : Str := (Nat.repr n).toList

/-! ## MCP data model (`src/mcp/types.ts`) -/

/-- A tool descriptor discovered on a downstream MCP server. -/
structure McpTool where
  name : Str
  description : Str
  inputSchema : Str
deriving DecidableEq, Repr

/-- Connection status of a downstream MCP server. -/
inductive ConnStatus where
  | connected
  | failed
  | disconnected
deriving DecidableEq, Repr

/-- The string rendering of a status, as it appears in error messages. -/
def ConnStatus.show : ConnStatus → Str
  | .connected => "connected".toList
  | .failed => "failed".toList
  | .disconnected => "disconnected".toList

/-- A connection entry for one downstream MCP server (`McpConnection`).
The underlying SDK client handle is not represented; its observable
behaviour is the `downstream` oracle passed to `callTool`. -/
structure McpConnection where
  serverId : Str
  tools : List McpTool
  status : ConnStatus
deriving DecidableEq, Repr

/-- A namespaced view of a downstream tool (`NamespacedTool`). -/
structure NamespacedTool where
  namespacedName : Str
  originalName : Str
  serverId : Str
  description : Str
  inputSchema : Str
deriving DecidableEq, Repr

/-- The connection table of the `ClientManager`. -/
abbrev Connections := List (Str × McpConnection)

/-- Error codes of `ToolExecutionError` (`src/errors.ts`). -/
inductive ToolErrorCode where
  | MCP_UNAVAILABLE
  | TOOL_NOT_FOUND
  | LLM_ERROR
  | TOOL_RESOLUTION_FAILED
  | EXECUTION_TIMEOUT
deriving DecidableEq, Repr

/-- A thrown JavaScript error: either a plain `Error` with a message, or a
`ToolExecutionError` with a code, a message and a details record. -/
inductive JsError where
  | genericError (message : Str)
  | toolExecutionError (code : ToolErrorCode) (message : Str)
      (details : List (Str × Str))
deriving DecidableEq, Repr

/-- Result of a proxied downstream tool call (`ToolCallResult`). -/
structure ToolCallResult where
  content : Str
  isError : Bool
deriving DecidableEq, Repr

/-- Observable outcome of `conn.client.callTool` on the downstream server:
either a result, or a thrown transport-level error with a message. -/
inductive DownstreamOutcome where
  | result (content : Str) (isError : Bool)
  | threw (message : Str)
deriving DecidableEq, Repr

/-! ## ClientManager (`src/mcp/client-manager.ts`) -/

/-- `NAMESPACE_SEPARATOR`. -/
def NAMESPACE_SEPARATOR : Str := "__".toList

/-- The composite name built by `getAvailableTools`:
`` `${serverId}${NAMESPACE_SEPARATOR}${toolName}` ``. -/
def namespacedNameOf (serverId toolName : Str) : Str :=
  serverId ++ NAMESPACE_SEPARATOR ++ toolName

/-- The split performed by `callTool`: `indexOf(NAMESPACE_SEPARATOR)`,
then `slice(0, sepIndex)` and `slice(sepIndex + NAMESPACE_SEPARATOR.length)`. -/
def splitNamespacedName (name : Str) : Option (Str × Str) :=
  match idxOfSub NAMESPACE_SEPARATOR name with
  | none => none
  | some sepIndex =>
    some (name.take sepIndex, name.drop (sepIndex + NAMESPACE_SEPARATOR.length))

/-- The namespaced view of one whitelist entry over a connection `conn`:
each permitted tool name found on the server, namespaced. -/
def availFromConn (serverId : Str) (toolNames : List Str)
    (conn : McpConnection) : List NamespacedTool :=
  toolNames.filterMap fun toolName =>
    (conn.tools.find? fun t => t.name = toolName).map fun tool =>
      { namespacedName := namespacedNameOf serverId toolName
        originalName := toolName
        serverId := serverId
        description := tool.description
        inputSchema := tool.inputSchema }

/-- The body of the outer `for` loop of `getAvailableTools`: skip the whole
entry when the server is missing or not connected. -/
def availEntry (conns : Connections) (entry : Str × List Str) :
    List NamespacedTool :=
  match getKey conns entry.1 with
  | none => []
  | some conn =>
    if conn.status = ConnStatus.connected then
      availFromConn entry.1 entry.2 conn
    else []

/-- `ClientManager.getAvailableTools`: the namespaced view of the whitelist,
skipping servers that are missing or not connected and tool names not found
on the server. -/
def getAvailableTools (conns : Connections)
    (internalTools : List (Str × List Str)) : List NamespacedTool :=
  internalTools.flatMap (availEntry conns)

/-- The plain `Error` thrown by `callTool` when the composite identifier
contains no separator. -/
def invalidNameError (namespacedName : Str) : JsError :=
  .genericError ("Invalid namespaced tool name: ".toList ++ namespacedName)

/-- The `ToolExecutionError` thrown by `callTool` when the server id is not
in the connection table. -/
def unknownServerError (serverId : Str) : JsError :=
  .toolExecutionError .MCP_UNAVAILABLE "Unknown MCP server".toList
    [("serverId".toList, serverId)]

/-- The `ToolExecutionError` thrown by `callTool` when the server exists but
its status is not `connected`; the status value appears both in the message
and in the details. -/
def unavailableError (serverId : Str) (status : ConnStatus) : JsError :=
  .toolExecutionError .MCP_UNAVAILABLE
    ("MCP server unavailable: ".toList ++ serverId ++ " (status: ".toList
      ++ status.show ++ ")".toList)
    [("serverId".toList, serverId), ("status".toList, status.show)]

/-- The `ToolExecutionError` thrown by `callTool` when the proxied downstream
call itself throws. -/
def proxyFailedError (serverId toolName msg : Str) : JsError :=
  .toolExecutionError .LLM_ERROR ("MCP tool call failed: ".toList ++ msg)
    [("serverId".toList, serverId), ("toolName".toList, toolName)]

/-- The details record carried by a thrown error. -/
def JsError.detailsOf : JsError → List (Str × Str)
  | .genericError _ => []
  | .toolExecutionError _ _ d => d

/-- `ClientManager.callTool`: split the namespaced name, look the server up,
check its status, then proxy the call to the downstream client (modelled by
the `downstream` oracle, applied to server id, original tool name and
serialized arguments). -/
def callToolResolved (conns : Connections)
    (downstream : Str → Str → Str → DownstreamOutcome)
    (args serverId toolName : Str) : Except JsError ToolCallResult :=
  match getKey conns serverId with
  | none => .error (unknownServerError serverId)
  | some conn =>
    if conn.status = ConnStatus.connected then
      match downstream serverId toolName args with
      | .result content isError => .ok { content := content, isError := isError }
      | .threw msg => .error (proxyFailedError serverId toolName msg)
    else
      .error (unavailableError serverId conn.status)

def callTool (conns : Connections)
    (downstream : Str → Str → Str → DownstreamOutcome)
    (namespacedName : Str) (args : Str) : Except JsError ToolCallResult :=
  match splitNamespacedName namespacedName with
  | none => .error (invalidNameError namespacedName)
  | some (serverId, toolName) =>
    callToolResolved conns downstream args serverId toolName

/-- `ClientManager.hasRequiredServers`: every server id appearing in the
whitelist maps to a `connected` connection. -/
def hasRequiredServers (conns : Connections)
    (internalTools : List (Str × List Str)) : Bool :=
  internalTools.all fun entry =>
    match getKey conns entry.1 with
    | some conn => conn.status = ConnStatus.connected
    | none => false

/-- Launch spec of a downstream MCP server (`McpConfig`), reduced to the
fields the manager's control flow depends on. -/
structure McpConfig where
  command : Str
  args : List Str
deriving DecidableEq, Repr

/-- Observable outcome of one connection attempt (`client.connect` followed
by `client.listTools`): discovery succeeded with a tool list, or some step
threw. -/
inductive ConnectOutcome where
  | ok (tools : List McpTool)
  | error (message : Str)
deriving DecidableEq, Repr

/-- `ClientManager.connectServer`: record a `connected` entry on success and
a `failed` entry on any transport or discovery error. -/
def connectServer (attempt : Str → McpConfig → ConnectOutcome)
    (serverId : Str) (config : McpConfig) : Str × McpConnection :=
  match attempt serverId config with
  | .ok tools => (serverId, { serverId := serverId, tools := tools, status := .connected })
  | .error _ => (serverId, { serverId := serverId, tools := [], status := .failed })

/-- `ClientManager.init`: attempt every configured server; each attempt's
entry depends only on that server's own outcome, and the table holds one
entry per configured server once all attempts settle. -/
def initManager (attempt : Str → McpConfig → ConnectOutcome)
    (mcpConfigs : List (Str × McpConfig)) : Connections :=
  mcpConfigs.map fun e => connectServer attempt e.1 e.2

/-! ## Session Manager (`src/execution/session-manager.ts`) -/

/-- A message in the model conversation. Tool-call payloads and structured
content are carried as rendered strings. -/
structure ModelMessage where
  role : Str
  content : Str
deriving DecidableEq, Repr

/-- State of a paused session (`SessionState`). The `resolve` completion
handle is not stored; its fulfilment is the `delivered` output of
`resumeSession`. Orchestrator reply payloads are carried in their
JSON-serialized form. -/
structure SessionState where
  sessionId : Nat
  toolName : Str
  originalArgs : List (Str × Str)
  messages : List ModelMessage
  question : Str
  createdAt : Nat
deriving DecidableEq, Repr

/-- The `SessionManager`: a ring counter and a table of paused sessions. -/
structure SessionManager where
  counter : Nat
  sessions : List (Nat × SessionState)
deriving DecidableEq, Repr

/-- A fresh `SessionManager`. -/
def SessionManager.empty : SessionManager := { counter := 0, sessions := [] }

/-- `SessionManager.createSession`: hand out the current counter value as the
session id, advance the counter modulo 1000, and store the session (silently
overwriting any stale entry at the same id after wraparound). `now` stands
for `Date.now()`. -/
def SessionManager.createSession (m : SessionManager) (toolName : Str)
    (originalArgs : List (Str × Str)) (messages : List ModelMessage)
    (question : Str) (now : Nat) : Nat × SessionManager :=
  let sessionId := m.counter
  let state : SessionState :=
    { sessionId := sessionId, toolName := toolName, originalArgs := originalArgs
      messages := messages, question := question, createdAt := now }
  (sessionId,
    { counter := (m.counter + 1) % 1000
      sessions := setKey m.sessions sessionId state })

/-- `SessionManager.getSession`. -/
def SessionManager.getSession (m : SessionManager) (sessionId : Nat) :
    Option SessionState :=
  getKey m.sessions sessionId

/-- `SessionManager.hasSession`. -/
def SessionManager.hasSession (m : SessionManager) (sessionId : Nat) : Bool :=
  (getKey m.sessions sessionId).isSome

/-- `SessionManager.activeCount`. -/
def SessionManager.activeCount (m : SessionManager) : Nat :=
  m.sessions.length

/-- `SessionManager.resumeSession`: `false` and no change on an unknown id;
otherwise fulfil the completion handle with the payload (the `delivered`
component), remove the session and return `true`. -/
def SessionManager.resumeSession (m : SessionManager) (sessionId : Nat)
    (payload : Str) : Bool × SessionManager × Option Str :=
  match getKey m.sessions sessionId with
  | none => (false, m, none)
  | some _ =>
    (true, { m with sessions := delKey m.sessions sessionId }, some payload)

/-! ## Execution Engine (`src/execution/engine.ts`) -/

/-- `EXECUTION_TIMEOUT_MS`. -/
def EXECUTION_TIMEOUT_MS : Nat := 60000

/-- `MAX_STEPS`. -/
def MAX_STEPS : Nat := 10

/-- `DEFAULT_SYSTEM_PROMPT`. -/
def DEFAULT_SYSTEM_PROMPT : Str :=
  ("You are a helpful AI assistant with access to tools.\n"
    ++ "Use the available tools to complete the task. Be thorough and precise.\n"
    ++ "When you have gathered enough information, provide a clear, concise answer.").toList

/-- An invocable model handle produced by the provider registry, identified
by its descriptor. -/
abbrev ModelHandle := Str

/-- A floating-point sampling temperature, carried as its literal rendering
(float arithmetic is never performed on it in the core). -/
abbrev FloatVal := Str

/-- Provider configuration (`ProviderConfig` in `src/config/schema.ts`),
reduced to the fields the engine's control flow reads. -/
structure ProviderConfig where
  provider : Str
  endpoint : Option Str
  apiKey : Option Str
deriving DecidableEq, Repr

/-- Composite tool definition (`ToolConfig` in `src/config/schema.ts`). -/
structure ToolConfig where
  name : Str
  description : Str
  internal_tools : List (Str × List Str)
  provider : Str
  model : Str
  system_prompt : Option Str
  temperature : FloatVal
  allow_callback : Bool
deriving DecidableEq, Repr

/-- `wrapTools` (`src/execution/tool-wrapper.ts`): wrap every namespaced tool
into a record keyed by its namespaced name. The wrapper's run-time behaviour
(proxying through `callTool`) is not needed by the claims; the record keeps
the wrapped tool's identity. -/
def wrapTools (tools : List NamespacedTool) : List (Str × NamespacedTool) :=
  tools.foldl (fun wrapped t => setKey wrapped t.namespacedName t) []

/-- Cached execution context for one composite tool
(`ToolExecutionContext`). -/
structure ToolExecutionContext where
  model : ModelHandle
  systemPrompt : Str
  tools : List (Str × NamespacedTool)
  temperature : FloatVal
  allowCallback : Bool
deriving DecidableEq, Repr

/-- The engine's context cache. -/
abbrev Contexts := List (Str × ToolExecutionContext)

/-- `ExecutionEngine.buildContext`: resolve the model through the provider
registry (the `resolveModel` oracle stands for `getModel`, which may throw),
compute the namespaced tool view restricted to the task's whitelist, wrap
it, and fill in the default system prompt when none (or an empty one) is
configured. -/
def buildContext (resolveModel : Str → Str → Option ProviderConfig → Except Str ModelHandle)
    (providers : List (Str × ProviderConfig)) (conns : Connections)
    (tc : ToolConfig) : Except Str ToolExecutionContext :=
  let providerConfig := getKey providers tc.provider
  let effProvider : Str :=
    match providerConfig with
    | some pc => if pc.provider = ([] : Str) then tc.provider else pc.provider
    | none => tc.provider
  match resolveModel effProvider tc.model providerConfig with
  | .error e => .error e
  | .ok model =>
    let availableTools := getAvailableTools conns tc.internal_tools
    .ok
      { model := model
        systemPrompt :=
          match tc.system_prompt with
          | some s => if s = ([] : Str) then DEFAULT_SYSTEM_PROMPT else s
          | none => DEFAULT_SYSTEM_PROMPT
        tools := wrapTools availableTools
        temperature := tc.temperature
        allowCallback := tc.allow_callback }

/-- The loop body of `ExecutionEngine.init`: gate on `hasRequiredServers`,
then try to build and cache a context, skipping the task on failure. -/
def initEngineStep (resolveModel : Str → Str → Option ProviderConfig → Except Str ModelHandle)
    (providers : List (Str × ProviderConfig)) (conns : Connections)
    (contexts : Contexts) (tc : ToolConfig) : Contexts :=
  if hasRequiredServers conns tc.internal_tools then
    match buildContext resolveModel providers conns tc with
    | .ok ctx => setKey contexts tc.name ctx
    | .error _ => contexts
  else contexts

/-- The `for` loop of `ExecutionEngine.init` over the configured tasks. -/
def initEngineAux (resolveModel : Str → Str → Option ProviderConfig → Except Str ModelHandle)
    (providers : List (Str × ProviderConfig)) (conns : Connections) :
    List ToolConfig → Contexts → Contexts
  | [], contexts => contexts
  | tc :: rest, contexts =>
    initEngineAux resolveModel providers conns rest
      (initEngineStep resolveModel providers conns contexts tc)

/-- `ExecutionEngine.init`: populate the context cache from an empty map. -/
def initEngine (resolveModel : Str → Str → Option ProviderConfig → Except Str ModelHandle)
    (providers : List (Str × ProviderConfig)) (conns : Connections)
    (tools : List ToolConfig) : Contexts :=
  initEngineAux resolveModel providers conns tools []

/-- `ExecutionEngine.hasContext`. -/
def hasContext (contexts : Contexts) (toolName : Str) : Bool :=
  (getKey contexts toolName).isSome

/-- One decision of the reasoning model at a step of the bounded loop:
finish with text, call one of the wrapped downstream tools, call the
injected `reply` tool (only available when callbacks are permitted), or
fail with a provider error. -/
inductive StepAction where
  | final (text : Str)
  | callTool (namespacedName : Str) (input : Str)
  | askReply (question : Str)
  | fail (message : Str)
deriving DecidableEq, Repr

/-- Observable outcome of one `generateText` call: final text with a step
count, a `CallbackRequested` interrupt carrying the question and the
captured message history, or a thrown error with a message. -/
inductive GenOutcome where
  | success (text : Str) (stepCount : Nat)
  | callback (question : Str) (messages : List ModelMessage)
  | failure (message : Str)
deriving DecidableEq, Repr

/-- Modelled from the spec: the error message surfaced when the sixty-second
`AbortSignal.timeout` deadline fires inside `generateText` (the inference
library is an external collaborator); the engine recognises a timeout by the
substrings `"Timeout"` and `"signal is aborted"` checked in
`executeWithMessages`. -/
def abortMessage : Str := "signal is aborted".toList

/-- Whether a step action is a downstream tool call (the only action that
keeps the loop running). -/
def StepAction.isCall : StepAction → Bool
  | .callTool _ _ => true
  | _ => false

/-- Outcome of one loop step, parametrised by the continuation `recur` used
when the model called a downstream tool. A `CallbackRequested` interrupt is
only possible when the `reply` tool was injected; with callbacks disabled
the model cannot call it, and (modelled from the spec) an attempt surfaces
as a provider failure. A thrown `ToolExecutionError` cannot escape the loop
because the tool wrapper catches every proxy error and returns it as text. -/
def runGenStep (recur : Nat → Nat → Str → GenOutcome) (allowCb : Bool)
    (history : List ModelMessage) (done d elapsed : Nat) (lastText : Str) :
    StepAction → GenOutcome
  | .final text => .success text (done + 1)
  | .callTool _ _ => recur (done + 1) (elapsed + d) lastText
  | .askReply q =>
    if allowCb then .callback q history
    else .failure "reply tool unavailable".toList
  | .fail m => .failure m

/-- Modelled from the spec: the bounded multi-step loop inside `generateText`
(an external library), as configured by the engine: it stops when the step
count reaches `MAX_STEPS` (`stopWhen stepCountIs(MAX_STEPS)`, ending with
whatever text has been produced) and aborts with `abortMessage` once the
wall-clock deadline has elapsed. `oracle` gives the model's decision at each
step, `dur` the wall-clock milliseconds consumed by each step. A
`CallbackRequested` interrupt captures the history reference, which still
holds the initial messages at interrupt time. -/
def runGen (oracle : Nat → StepAction) (dur : Nat → Nat) (allowCb : Bool)
    (history : List ModelMessage) :
    Nat → Nat → Nat → Str → GenOutcome
  | 0, done, _, lastText => .success lastText done
  | fuel + 1, done, elapsed, lastText =>
    if EXECUTION_TIMEOUT_MS ≤ elapsed then .failure abortMessage
    else
      runGenStep (fun d' e' lt => runGen oracle dur allowCb history fuel d' e' lt)
        allowCb history done (dur done) elapsed lastText (oracle done)

/-- `generateText` as invoked by `executeWithMessages`: the modelled loop
started with full fuel, zero elapsed time and empty text. -/
def generateTextModel (oracle : Nat → StepAction) (dur : Nat → Nat)
    (allowCb : Bool) (messages : List ModelMessage) : GenOutcome :=
  runGen oracle dur allowCb messages MAX_STEPS 0 0 ([] : Str)

/-- Total wall-clock time of `k` consecutive loop steps starting at step
index `start`. -/
def sumDur (dur : Nat → Nat) : Nat → Nat → Nat
  | _, 0 => 0
  | start, k + 1 => dur start + sumDur dur (start + 1) k

/-- Result from executing a composite tool (`ExecuteResult`). -/
inductive ExecuteResult where
  | complete (text : Str) (stepCount : Nat)
  | callback (sessionId : Nat) (question : Str)
deriving DecidableEq, Repr

/-- The result handling of `executeWithMessages`, by outcome of the
`generateText` call: report success with the step count; turn a
`CallbackRequested` interrupt into a new session and a pause marker;
classify any other thrown error — a message mentioning `"Timeout"` or
`"signal is aborted"` becomes an `EXECUTION_TIMEOUT` `ToolExecutionError`,
anything else an `LLM_ERROR`. -/
def classifyGen (toolName : Str) (args : List (Str × Str))
    (mgr : SessionManager) (now : Nat) :
    GenOutcome → Except JsError ExecuteResult × SessionManager
  | .success text stepCount => (.ok (.complete text stepCount), mgr)
  | .callback q msgs =>
    let r := mgr.createSession toolName args msgs q now
    (.ok (.callback r.1 q), r.2)
  | .failure msg =>
    if containsSub "Timeout".toList msg || containsSub "signal is aborted".toList msg then
      (.error (.toolExecutionError .EXECUTION_TIMEOUT
        ("Execution timed out: ".toList ++ msg) [("toolName".toList, toolName)]), mgr)
    else
      (.error (.toolExecutionError .LLM_ERROR ("Provider error: ".toList ++ msg)
        [("toolName".toList, toolName)]), mgr)

/-- `ExecutionEngine.executeWithMessages`: run the loop (with the `reply`
tool injected when the context permits callbacks) and handle its outcome. -/
def executeWithMessages (toolName : Str) (args : List (Str × Str))
    (context : ToolExecutionContext) (messages : List ModelMessage)
    (mgr : SessionManager) (oracle : Nat → StepAction) (dur : Nat → Nat)
    (now : Nat) : Except JsError ExecuteResult × SessionManager :=
  classifyGen toolName args mgr now
    (generateTextModel oracle dur context.allowCallback messages)

/-- The prompt serialization in `ExecutionEngine.execute`: one `key: value`
line per argument entry, joined by newlines. -/
def promptOfArgs (args : List (Str × Str)) : Str :=
  List.intercalate "\n".toList (args.map fun kv => kv.1 ++ ": ".toList ++ kv.2)

/-- `ExecutionEngine.execute`: require a cached context, serialize the
arguments into the sole initial user message, and delegate to the loop
driver. -/
def execute (contexts : Contexts) (mgr : SessionManager)
    (oracle : Nat → StepAction) (dur : Nat → Nat) (now : Nat)
    (toolName : Str) (args : List (Str × Str)) :
    Except JsError ExecuteResult × SessionManager :=
  match getKey contexts toolName with
  | none =>
    (.error (.genericError ("No execution context for tool: ".toList ++ toolName)), mgr)
  | some context =>
    executeWithMessages toolName args context
      [{ role := "user".toList, content := promptOfArgs args }] mgr oracle dur now

/-- The synthetic user message `resume` appends: it embeds the session's
original question and the JSON-serialized reply payload. -/
def replyMessage (question : Str) (payload : Str) : ModelMessage :=
  { role := "user".toList
    content := ("Orchestrator replied to your question \"".toList ++ question
      ++ "\": ".toList ++ payload) }

/-- Output of `ExecutionEngine.resume`: the execution result (or thrown
error), the session manager afterwards, and the payload delivered to the
session's completion handle (if any was fulfilled). -/
structure ResumeOutput where
  result : Except JsError ExecuteResult
  mgr : SessionManager
  delivered : Option Str
deriving Repr

/-- The part of `ExecutionEngine.resume` after the session lookup succeeded:
require a cached context for the session's task; reconstruct the history as
the saved messages plus the one synthetic reply message; accept the resume
(fulfilling and removing the session); delegate to the loop driver. -/
def resumeWithSession (contexts : Contexts) (mgr : SessionManager)
    (oracle : Nat → StepAction) (dur : Nat → Nat) (now : Nat)
    (sessionId : Nat) (payload : Str) (session : SessionState) : ResumeOutput :=
  match getKey contexts session.toolName with
  | none =>
    { result := .error (.genericError
        ("No execution context for tool: ".toList ++ session.toolName))
      mgr := mgr, delivered := none }
  | some context =>
    let messages := session.messages ++ [replyMessage session.question payload]
    let r := mgr.resumeSession sessionId payload
    let e := executeWithMessages session.toolName session.originalArgs context
      messages r.2.1 oracle dur now
    { result := e.1, mgr := e.2, delivered := r.2.2 }

/-- `ExecutionEngine.resume`: require a live session, then proceed as in
`resumeWithSession`. -/
def resume (contexts : Contexts) (mgr : SessionManager)
    (oracle : Nat → StepAction) (dur : Nat → Nat) (now : Nat)
    (sessionId : Nat) (payload : Str) : ResumeOutput :=
  match mgr.getSession sessionId with
  | none =>
    { result := .error (.genericError ("No session found with ID: ".toList ++ natStr sessionId))
      mgr := mgr, delivered := none }
  | some session =>
    resumeWithSession contexts mgr oracle dur now sessionId payload session

/-! ## Iterated session creation (for the ring-identifier property) -/

/-- The arguments of one `createSession` call. -/
structure CreateInput where
  toolName : Str
  originalArgs : List (Str × Str)
  messages : List ModelMessage
  question : Str
  now : Nat
deriving DecidableEq, Repr

/-- Apply one `createSession` call described by a `CreateInput`. -/
def applyCreate (m : SessionManager) (i : CreateInput) : Nat × SessionManager :=
  m.createSession i.toolName i.originalArgs i.messages i.question i.now

/-- The session identifiers handed out by a sequence of `createSession`
calls. -/
def idsOf (m : SessionManager) : List CreateInput → List Nat
  | [] => []
  | i :: rest => (applyCreate m i).1 :: idsOf (applyCreate m i).2 rest

/-- Whether a whitelist pair (server id, original tool name) is backed by a
connected connection that discovered that tool. -/
def backedPair (conns : Connections) (serverId toolName : Str) : Bool :=
  match getKey conns serverId with
  | none => false
  | some conn =>
    decide (conn.status = ConnStatus.connected)
      && (conn.tools.find? fun t => t.name = toolName).isSome

/-- Whether an `Except` value is a success. -/
def exceptIsOk {ε α : Type} : Except ε α → Bool
  | .ok _ => true
  | .error _ => false

/-! ## Claim statements and concrete fixtures -/

/-- C1, as stated: for every server id `s` and tool name `t`, neither
containing the separator `"__"`, splitting the composite name built by
`getAvailableTools` the way `callTool` does recovers exactly `s` and `t`. -/
def roundTripClaim : Prop :=
  ∀ s t : Str, containsSub NAMESPACE_SEPARATOR s = false →
    containsSub NAMESPACE_SEPARATOR t = false →
    splitNamespacedName (namespacedNameOf s t) = some (s, t)

/-- C2, as stated: a task one of whose whitelisted (server, tool name) pairs
is not backed by a connected connection that discovered that tool is
omitted from the context cache. -/
def contextOmissionClaim : Prop :=
  ∀ (resolveModel : Str → Str → Option ProviderConfig → Except Str ModelHandle)
    (providers : List (Str × ProviderConfig)) (conns : Connections)
    (tools : List ToolConfig) (tc : ToolConfig), tc ∈ tools →
    (∃ entry ∈ tc.internal_tools, ∃ toolName ∈ entry.2,
      backedPair conns entry.1 toolName = false) →
    hasContext (initEngine resolveModel providers conns tools) tc.name = false

/-- A connected demo server `"s"` that discovered the single tool `"a"`. -/
def demoConn : McpConnection :=
  { serverId := "s".toList
    tools := [{ name := "a".toList, description := "d".toList
                inputSchema := "i".toList }]
    status := .connected }

/-- A demo task `"t"` whitelisting tool `"b"` on server `"s"`. -/
def demoTask : ToolConfig :=
  { name := "t".toList, description := []
    internal_tools := [("s".toList, ["b".toList])]
    provider := "p".toList, model := "m".toList, system_prompt := none
    temperature := "0.3".toList, allow_callback := false }

/-- A provider-registry oracle whose resolution always succeeds. -/
def resolveAlwaysOk : Str → Str → Option ProviderConfig → Except Str ModelHandle :=
  fun _ model _ => .ok model

/-- A demo paused session with identifier `0` owned by task `"t"`. -/
def demoSession : SessionState :=
  { sessionId := 0, toolName := "t".toList, originalArgs := []
    messages := [{ role := "user".toList, content := "hello".toList }]
    question := "q".toList, createdAt := 0 }

/-- A session manager holding exactly `demoSession`. -/
def demoManager : SessionManager :=
  { counter := 1, sessions := [(0, demoSession)] }

/-- A minimal cached execution context for task `"t"`. -/
def demoContext : ToolExecutionContext :=
  { model := "m".toList, systemPrompt := DEFAULT_SYSTEM_PROMPT, tools := []
    temperature := "0.3".toList, allowCallback := false }

/-! ## Association-list lemmas -/

theorem getKey_setKey_self {κ α : Type} [DecidableEq κ]
    (t : List (κ × α)) (k : κ) (v : α) : getKey (setKey t k v) k = some v := by
  induction t with
  | nil => simp [setKey, getKey]
  | cons e rest ih =>
    by_cases h : e.1 = k
    · simp [setKey, getKey, h]
    · simp [setKey, getKey, h, ih]

theorem getKey_setKey_ne {κ α : Type} [DecidableEq κ]
    (t : List (κ × α)) (k k' : κ) (v : α) (h : k ≠ k') :
    getKey (setKey t k v) k' = getKey t k' := by
  induction t with
  | nil => simp [setKey, getKey, h]
  | cons e rest ih =>
    by_cases he : e.1 = k
    · subst he
      simp [setKey, getKey, h]
    · simp only [setKey, if_neg he, getKey]
      by_cases he' : e.1 = k'
      · simp [he']
      · simp [he', ih]

theorem getKey_delKey_ne {κ α : Type} [DecidableEq κ]
    (t : List (κ × α)) (k k' : κ) (h : k ≠ k') :
    getKey (delKey t k) k' = getKey t k' := by
  induction t with
  | nil => simp [delKey]
  | cons e rest ih =>
    by_cases he : e.1 = k
    · subst he
      simp [delKey, getKey, h]
    · simp only [delKey, if_neg he, getKey]
      by_cases he' : e.1 = k'
      · simp [he']
      · simp [he', ih]

theorem getKey_eq_none_of_not_mem {κ α : Type} [DecidableEq κ]
    (t : List (κ × α)) (k : κ) (h : k ∉ t.map Prod.fst) :
    getKey t k = none := by
  induction t with
  | nil => rfl
  | cons e rest ih =>
    simp only [List.map_cons, List.mem_cons, not_or] at h
    have hne : e.1 ≠ k := fun hq => h.1 hq.symm
    simp [getKey, hne, ih h.2]

theorem getKey_delKey_self {κ α : Type} [DecidableEq κ]
    (t : List (κ × α)) (k : κ) (hnd : (t.map Prod.fst).Nodup) :
    getKey (delKey t k) k = none := by
  induction t with
  | nil => rfl
  | cons e rest ih =>
    simp only [List.map_cons, List.nodup_cons] at hnd
    by_cases he : e.1 = k
    · simp only [delKey, if_pos he]
      exact getKey_eq_none_of_not_mem rest k (he ▸ hnd.1)
    · simp only [delKey, if_neg he, getKey, if_neg he]
      exact ih hnd.2

theorem length_delKey_of_mem {κ α : Type} [DecidableEq κ]
    (t : List (κ × α)) (k : κ) (h : (getKey t k).isSome = true) :
    (delKey t k).length + 1 = t.length := by
  induction t with
  | nil => simp [getKey] at h
  | cons e rest ih =>
    by_cases he : e.1 = k
    · simp [delKey, he]
    · simp only [getKey, if_neg he] at h
      simp [delKey, if_neg he, ih h]

/-! ## Equations for the staged manager operations -/

theorem availEntry_eq_of_none {conns : Connections} {entry : Str × List Str}
    (h : getKey conns entry.1 = none) : availEntry conns entry = [] := by
  unfold availEntry
  rw [h]

theorem availEntry_eq_of_some {conns : Connections} {entry : Str × List Str}
    {conn : McpConnection} (h : getKey conns entry.1 = some conn) :
    availEntry conns entry
      = if conn.status = ConnStatus.connected then
          availFromConn entry.1 entry.2 conn
        else [] := by
  unfold availEntry
  rw [h]

theorem callTool_eq_of_split_none {conns : Connections}
    {downstream : Str → Str → Str → DownstreamOutcome} {name args : Str}
    (h : splitNamespacedName name = none) :
    callTool conns downstream name args = .error (invalidNameError name) := by
  unfold callTool
  rw [h]

theorem callTool_eq_of_split_some {conns : Connections}
    {downstream : Str → Str → Str → DownstreamOutcome} {name args : Str}
    {serverId toolName : Str}
    (h : splitNamespacedName name = some (serverId, toolName)) :
    callTool conns downstream name args
      = callToolResolved conns downstream args serverId toolName := by
  unfold callTool
  rw [h]

theorem callToolResolved_eq_of_none {conns : Connections}
    {downstream : Str → Str → Str → DownstreamOutcome}
    {args serverId toolName : Str} (h : getKey conns serverId = none) :
    callToolResolved conns downstream args serverId toolName
      = .error (unknownServerError serverId) := by
  unfold callToolResolved
  rw [h]

theorem callToolResolved_eq_of_some {conns : Connections}
    {downstream : Str → Str → Str → DownstreamOutcome}
    {args serverId toolName : Str} {conn : McpConnection}
    (h : getKey conns serverId = some conn) :
    callToolResolved conns downstream args serverId toolName
      = if conn.status = ConnStatus.connected then
          match downstream serverId toolName args with
          | .result content isError => .ok { content := content, isError := isError }
          | .threw msg => .error (proxyFailedError serverId toolName msg)
        else
          .error (unavailableError serverId conn.status) := by
  unfold callToolResolved
  rw [h]


/-! ## Lemmas on splitting at the namespace separator -/

theorem sep_isPrefixOf_iff (l : Str) :
    NAMESPACE_SEPARATOR.isPrefixOf l = true ↔ ∃ r, l = '_' :: '_' :: r := by
  match l with
  | [] => simp [NAMESPACE_SEPARATOR, List.isPrefixOf]
  | [c] => simp [NAMESPACE_SEPARATOR, List.isPrefixOf]
  | c :: c' :: r =>
    constructor
    · intro h
      simp only [NAMESPACE_SEPARATOR, List.isPrefixOf, Bool.and_eq_true,
        beq_iff_eq] at h
      obtain ⟨h1, h2, _⟩ := h
      exact ⟨r, by subst h1; subst h2; rfl⟩
    · rintro ⟨r', hr⟩
      rw [hr]
      simp [NAMESPACE_SEPARATOR, List.isPrefixOf]

theorem containsSub_cons (pat : Str) (c : Char) (r : Str) :
    containsSub pat (c :: r)
      = (pat.isPrefixOf (c :: r) || containsSub pat r) := by
  by_cases h : pat.isPrefixOf (c :: r) = true
  · simp [containsSub, idxOfSub, h]
  · simp only [Bool.not_eq_true] at h
    simp [containsSub, idxOfSub, h, Option.isSome_map]

theorem sep_append_cons (t : Str) : NAMESPACE_SEPARATOR ++ t = '_' :: '_' :: t := rfl

theorem idxOfSub_sep_append (t : Str) :
    ∀ s : Str, containsSub NAMESPACE_SEPARATOR s = false →
      s.getLast? ≠ some '_' →
      idxOfSub NAMESPACE_SEPARATOR (s ++ NAMESPACE_SEPARATOR ++ t)
        = some s.length := by
  intro s
  induction s with
  | nil =>
    intro _ _
    have hp : NAMESPACE_SEPARATOR.isPrefixOf ('_' :: '_' :: t) = true :=
      (sep_isPrefixOf_iff _).mpr ⟨t, rfl⟩
    simp only [List.nil_append, sep_append_cons, List.length_nil]
    simp [idxOfSub, hp]
  | cons c s' ih =>
    intro hc hl
    have hrest : containsSub NAMESPACE_SEPARATOR s' = false := by
      rw [containsSub_cons] at hc
      exact (Bool.or_eq_false_iff.mp hc).2
    have hshape : (c :: s') ++ NAMESPACE_SEPARATOR ++ t
        = c :: (s' ++ NAMESPACE_SEPARATOR ++ t) := by simp
    have hnp : NAMESPACE_SEPARATOR.isPrefixOf
        (c :: (s' ++ NAMESPACE_SEPARATOR ++ t)) = false := by
      rw [Bool.eq_false_iff]
      intro hp
      obtain ⟨r, hr⟩ := (sep_isPrefixOf_iff _).mp hp
      rw [List.cons.injEq] at hr
      obtain ⟨hc1, hr2⟩ := hr
      cases s' with
      | nil =>
        exact hl (by simp [hc1])
      | cons c' s'' =>
        have hc2 : c' = '_' := by
          have := hr2
          simp only [List.cons_append, List.append_assoc, List.cons.injEq] at this
          exact this.1
        have hpre : NAMESPACE_SEPARATOR.isPrefixOf (c :: c' :: s'') = true :=
          (sep_isPrefixOf_iff _).mpr ⟨s'', by rw [hc1, hc2]⟩
        rw [containsSub_cons, hpre] at hc
        simp at hc
    have hl' : s'.getLast? ≠ some '_' := by
      cases s' with
      | nil => simp
      | cons d s'' =>
        intro hq
        exact hl (by rw [List.getLast?_cons_cons]; exact hq)
    rw [hshape]
    have ih' := ih hrest hl'
    rw [List.append_assoc] at ih'
    have hnp2 : NAMESPACE_SEPARATOR.isPrefixOf
        (c :: (s' ++ (NAMESPACE_SEPARATOR ++ t))) = false := by
      rw [← List.append_assoc]
      exact hnp
    have hnp' : ¬ (NAMESPACE_SEPARATOR <+: c :: (s' ++ (NAMESPACE_SEPARATOR ++ t))) := by
      intro hx
      have h2 := List.isPrefixOf_iff_prefix.mpr hx
      rw [hnp2] at h2
      simp at h2
    simp [idxOfSub, hnp', ih']

/-! ## C1 — namespaced-name round trip -/

/-- C1 counterexample: the claim as stated is false. With server id `"a_"`
and tool name `"b"` (neither contains `"__"`), the composite name is
`"a___b"`, whose first `"__"` occurrence starts inside the server id, so
`callTool`'s split recovers `("a", "_b")` instead of `("a_", "b")`. -/
theorem roundTripClaim_counterexample : ¬ roundTripClaim := by
  intro h
  exact absurd (h "a_".toList "b".toList (by decide) (by decide)) (by decide)

/-- C1 amended: the round trip holds for every server id `s` that neither
contains the separator `"__"` nor ends with the character `'_'`, and every
tool name `t` not containing the separator: splitting the composite name
that `getAvailableTools` builds, as `callTool` does, recovers exactly `s`
and `t`. -/
theorem roundTrip_of_sepFree_not_endUnderscore (s t : Str)
    (hs : containsSub NAMESPACE_SEPARATOR s = false)
    (_ht : containsSub NAMESPACE_SEPARATOR t = false)
    (hlast : s.getLast? ≠ some '_') :
    splitNamespacedName (namespacedNameOf s t) = some (s, t) := by
  unfold splitNamespacedName namespacedNameOf
  rw [idxOfSub_sep_append t s hs hlast]
  have htake : (s ++ NAMESPACE_SEPARATOR ++ t).take s.length = s := by
    rw [List.append_assoc]
    exact List.take_left s (NAMESPACE_SEPARATOR ++ t)
  have hdrop : (s ++ NAMESPACE_SEPARATOR ++ t).drop
      (s.length + NAMESPACE_SEPARATOR.length) = t := by
    have hlen : (s ++ NAMESPACE_SEPARATOR).length
        = s.length + NAMESPACE_SEPARATOR.length := List.length_append s _
    rw [← hlen]
    exact List.drop_left (s ++ NAMESPACE_SEPARATOR) t
  show some ((s ++ NAMESPACE_SEPARATOR ++ t).take s.length,
    (s ++ NAMESPACE_SEPARATOR ++ t).drop (s.length + NAMESPACE_SEPARATOR.length))
      = some (s, t)
  rw [htake, hdrop]

/-- Witness for the amended C1 round trip at a concrete pair. -/
theorem roundTrip_witness :
    splitNamespacedName (namespacedNameOf "server".toList "echo".toList)
      = some ("server".toList, "echo".toList) :=
  roundTrip_of_sepFree_not_endUnderscore "server".toList "echo".toList
    (by decide) (by decide) (by decide)

/-! ## C7 — availableTools characterization -/

/-- C7: `getAvailableTools` is total (it never raises) and returns exactly
the namespaced-tool view of those whitelist pairs whose server has a
`connected` connection and whose tool name exists in that connection's
discovered tool list; all other pairs are skipped. -/
theorem mem_getAvailableTools_iff (conns : Connections)
    (wl : List (Str × List Str)) (nt : NamespacedTool) :
    nt ∈ getAvailableTools conns wl ↔
      ∃ serverId names, (serverId, names) ∈ wl ∧
        ∃ conn, getKey conns serverId = some conn ∧
          conn.status = ConnStatus.connected ∧
          ∃ toolName, toolName ∈ names ∧
            ∃ tool, conn.tools.find? (fun tl => tl.name = toolName) = some tool ∧
              nt = { namespacedName := namespacedNameOf serverId toolName
                     originalName := toolName
                     serverId := serverId
                     description := tool.description
                     inputSchema := tool.inputSchema } := by
  unfold getAvailableTools
  rw [List.mem_flatMap]
  constructor
  · rintro ⟨⟨serverId, names⟩, he, hmem⟩
    cases hconn : getKey conns (serverId, names).1 with
    | none => rw [availEntry_eq_of_none hconn] at hmem; simp at hmem
    | some conn =>
      rw [availEntry_eq_of_some hconn] at hmem
      by_cases hst : conn.status = ConnStatus.connected
      · rw [if_pos hst] at hmem
        unfold availFromConn at hmem
        rw [List.mem_filterMap] at hmem
        obtain ⟨toolName, htn, hmap⟩ := hmem
        cases hfind : conn.tools.find? (fun tl => tl.name = toolName) with
        | none => rw [hfind] at hmap; simp at hmap
        | some tool =>
          rw [hfind] at hmap
          simp only [Option.map, Option.some.injEq] at hmap
          exact ⟨serverId, names, he, conn, hconn, hst, toolName, htn, tool,
            hfind, hmap.symm⟩
      · rw [if_neg hst] at hmem; simp at hmem
  · rintro ⟨serverId, names, hwl, conn, hconn, hst, toolName, htn, tool, hfind, hnt⟩
    refine ⟨(serverId, names), hwl, ?_⟩
    rw [@availEntry_eq_of_some conns (serverId, names) conn hconn, if_pos hst]
    unfold availFromConn
    rw [List.mem_filterMap]
    exact ⟨toolName, htn, by rw [hfind]; simp [hnt]⟩

/-- Witness for C7 at a concrete connection table and whitelist. -/
theorem mem_getAvailableTools_iff_witness :
    ({ namespacedName := namespacedNameOf "s".toList "a".toList
       originalName := "a".toList
       serverId := "s".toList
       description := "d".toList
       inputSchema := "i".toList } : NamespacedTool) ∈
      getAvailableTools
        [("s".toList,
          { serverId := "s".toList
            tools := [{ name := "a".toList, description := "d".toList
                        inputSchema := "i".toList }]
            status := .connected })]
        [("s".toList, ["a".toList, "b".toList])] :=
  (mem_getAvailableTools_iff _ _ _).mpr
    ⟨"s".toList, ["a".toList, "b".toList], by decide,
      { serverId := "s".toList
        tools := [{ name := "a".toList, description := "d".toList
                    inputSchema := "i".toList }]
        status := .connected }, by decide, by decide,
      "a".toList, by decide,
      { name := "a".toList, description := "d".toList, inputSchema := "i".toList },
      by decide, by decide⟩

/-! ## C3 — callTool error classification -/

/-- C3: `callTool` fails with the malformed-name error when the composite
identifier has no separator, with the unknown-server error when the server
id is not in the table, and with the unavailable error (whose details carry
the status value) when the server is not `connected`; the three error
values are pairwise distinct; and a successful result arises only when the
server exists, is `connected`, and the downstream call returned a result. -/
theorem callTool_error_classification
    (conns : Connections) (downstream : Str → Str → Str → DownstreamOutcome)
    (name args : Str) :
    (splitNamespacedName name = none →
      callTool conns downstream name args = .error (invalidNameError name)) ∧
    (∀ serverId toolName,
      splitNamespacedName name = some (serverId, toolName) →
      getKey conns serverId = none →
      callTool conns downstream name args = .error (unknownServerError serverId)) ∧
    (∀ serverId toolName conn,
      splitNamespacedName name = some (serverId, toolName) →
      getKey conns serverId = some conn →
      conn.status ≠ ConnStatus.connected →
      callTool conns downstream name args
        = .error (unavailableError serverId conn.status) ∧
      ("status".toList, conn.status.show)
        ∈ (unavailableError serverId conn.status).detailsOf) ∧
    (∀ n s s' st, invalidNameError n ≠ unknownServerError s ∧
      invalidNameError n ≠ unavailableError s st ∧
      unknownServerError s ≠ unavailableError s' st) ∧
    (∀ r, callTool conns downstream name args = .ok r →
      ∃ serverId toolName conn,
        splitNamespacedName name = some (serverId, toolName) ∧
        getKey conns serverId = some conn ∧
        conn.status = ConnStatus.connected ∧
        downstream serverId toolName args = .result r.content r.isError) := by
  refine ⟨?_, ?_, ?_, ?_, ?_⟩
  · intro h
    exact callTool_eq_of_split_none h
  · intro serverId toolName hsplit hget
    rw [callTool_eq_of_split_some hsplit]
    exact callToolResolved_eq_of_none hget
  · intro serverId toolName conn hsplit hget hst
    constructor
    · rw [callTool_eq_of_split_some hsplit, callToolResolved_eq_of_some hget,
        if_neg hst]
    · unfold unavailableError JsError.detailsOf
      simp
  · intro n s s' st
    refine ⟨by simp [invalidNameError, unknownServerError], by
      simp [invalidNameError, unavailableError], ?_⟩
    intro h
    unfold unknownServerError unavailableError at h
    rw [JsError.toolExecutionError.injEq] at h
    have hmsg := h.2.1
    have hhead := congrArg List.head? hmsg
    rw [show ("Unknown MCP server".toList : Str).head? = some 'U' from rfl] at hhead
    rw [show (("MCP server unavailable: ".toList ++ s' ++ " (status: ".toList
      ++ st.show ++ ")".toList : Str)).head? = some 'M' from rfl] at hhead
    simp at hhead
  · intro r h
    cases hsplit : splitNamespacedName name with
    | none => rw [callTool_eq_of_split_none hsplit] at h; simp at h
    | some p =>
      obtain ⟨serverId, toolName⟩ := p
      rw [callTool_eq_of_split_some hsplit] at h
      cases hget : getKey conns serverId with
      | none => rw [callToolResolved_eq_of_none hget] at h; simp at h
      | some conn =>
        rw [callToolResolved_eq_of_some hget] at h
        by_cases hst : conn.status = ConnStatus.connected
        · rw [if_pos hst] at h
          cases hdown : downstream serverId toolName args with
          | result content isError =>
            rw [hdown] at h
            rw [Except.ok.injEq] at h
            refine ⟨serverId, toolName, conn, rfl, hget, hst, ?_⟩
            rw [hdown, ← h]
          | threw msg => rw [hdown] at h; simp at h
        · rw [if_neg hst] at h; simp at h

/-- Witness for C3 at concrete inputs covering each hypothesis. -/
theorem callTool_error_classification_witness :
    callTool [] (fun _ _ _ => .threw []) "noseparator".toList []
        = .error (invalidNameError "noseparator".toList) ∧
    callTool [] (fun _ _ _ => .threw []) "s__a".toList []
        = .error (unknownServerError "s".toList) ∧
    callTool [("s".toList,
        { serverId := "s".toList, tools := [], status := .failed })]
        (fun _ _ _ => .threw []) "s__a".toList []
        = .error (unavailableError "s".toList .failed) ∧
    unknownServerError "s".toList ≠ unavailableError "s".toList .failed := by
  refine ⟨?_, ?_, ?_, ?_⟩
  · exact (callTool_error_classification [] (fun _ _ _ => .threw [])
      "noseparator".toList []).1 (by decide)
  · exact (callTool_error_classification [] (fun _ _ _ => .threw [])
      "s__a".toList []).2.1 "s".toList "a".toList (by decide) (by decide)
  · exact ((callTool_error_classification
      [("s".toList, { serverId := "s".toList, tools := [], status := .failed })]
      (fun _ _ _ => .threw []) "s__a".toList []).2.2.1 "s".toList "a".toList
      { serverId := "s".toList, tools := [], status := .failed }
      (by decide) (by decide) (by decide)).1
  · exact ((callTool_error_classification [] (fun _ _ _ => .threw [])
      "s__a".toList []).2.2.2.1 "x".toList "s".toList "s".toList .failed).2.2

/-! ## C8 — initManager fault isolation -/

theorem getKey_initManager (attempt : Str → McpConfig → ConnectOutcome)
    (configs : List (Str × McpConfig)) (sid : Str) (cfg : McpConfig)
    (hnd : (configs.map Prod.fst).Nodup) (hmem : (sid, cfg) ∈ configs) :
    getKey (initManager attempt configs) sid
      = some (connectServer attempt sid cfg).2 := by
  induction configs with
  | nil => simp at hmem
  | cons e rest ih =>
    simp only [List.map_cons, List.nodup_cons] at hnd
    rcases List.mem_cons.mp hmem with he | he
    · subst he
      simp only [initManager, List.map_cons, getKey]
      have : (connectServer attempt sid cfg).1 = sid := by
        unfold connectServer
        cases attempt sid cfg <;> rfl
      rw [if_pos this]
    · have hne : e.1 ≠ sid := by
        intro hq
        exact hnd.1 (hq ▸ (List.mem_map.mpr ⟨(sid, cfg), he, rfl⟩))
      simp only [initManager, List.map_cons, getKey]
      have hfst : (connectServer attempt e.1 e.2).1 = e.1 := by
        unfold connectServer
        cases attempt e.1 e.2 <;> rfl
      rw [if_neg (by rw [hfst]; exact hne)]
      exact ih hnd.2 he

/-- C8: after `initManager` settles, the table has exactly one entry per
configured server, in order; with distinct server ids every configured
server maps to an entry whose status is `connected` or `failed`, determined
solely by that server's own attempt outcome — so another server's failure
cannot alter it. -/
theorem initManager_spec (attempt : Str → McpConfig → ConnectOutcome)
    (configs : List (Str × McpConfig)) :
    (initManager attempt configs).length = configs.length ∧
    (∀ sid cfg, (configs.map Prod.fst).Nodup → (sid, cfg) ∈ configs →
      getKey (initManager attempt configs) sid
          = some (connectServer attempt sid cfg).2 ∧
      ((connectServer attempt sid cfg).2.status = ConnStatus.connected
        ∨ (connectServer attempt sid cfg).2.status = ConnStatus.failed)) ∧
    (∀ attempt' sid cfg, (configs.map Prod.fst).Nodup → (sid, cfg) ∈ configs →
      attempt sid cfg = attempt' sid cfg →
      getKey (initManager attempt configs) sid
        = getKey (initManager attempt' configs) sid) := by
  refine ⟨by simp [initManager], ?_, ?_⟩
  · intro sid cfg hnd hmem
    refine ⟨getKey_initManager attempt configs sid cfg hnd hmem, ?_⟩
    unfold connectServer
    cases attempt sid cfg with
    | ok tools => left; rfl
    | error msg => right; rfl
  · intro attempt' sid cfg hnd hmem hsame
    rw [getKey_initManager attempt configs sid cfg hnd hmem,
      getKey_initManager attempt' configs sid cfg hnd hmem]
    unfold connectServer
    rw [hsame]

/-- Witness for C8: two configured servers, one attempt failing and the
other succeeding; the failing server is `failed`, the other `connected`. -/
theorem initManager_spec_witness :
    getKey (initManager
        (fun sid _ => if sid = "a".toList then .error "boom".toList else .ok [])
        [("a".toList, { command := "c".toList, args := [] }),
         ("b".toList, { command := "c".toList, args := [] })]) "b".toList
      = some { serverId := "b".toList, tools := [], status := .connected } := by
  have h := ((initManager_spec
      (fun sid _ => if sid = "a".toList then .error "boom".toList else .ok [])
      [("a".toList, { command := "c".toList, args := [] }),
       ("b".toList, { command := "c".toList, args := [] })]).2.1
      "b".toList { command := "c".toList, args := [] } (by decide) (by decide)).1
  rw [h]
  rfl

/-! ## C9 — resumeSession semantics -/

theorem resumeSession_eq_of_none {m : SessionManager} {sid : Nat}
    (payload : Str) (h : getKey m.sessions sid = none) :
    m.resumeSession sid payload = (false, m, none) := by
  unfold SessionManager.resumeSession
  rw [h]

theorem resumeSession_eq_of_some {m : SessionManager} {sid : Nat}
    (payload : Str) {s : SessionState} (h : getKey m.sessions sid = some s) :
    m.resumeSession sid payload
      = (true, { m with sessions := delKey m.sessions sid }, some payload) := by
  unfold SessionManager.resumeSession
  rw [h]

/-- C9: `resumeSession` on an unknown id returns `false` and leaves the
table untouched; on a live id it fulfils the completion handle with exactly
the supplied payload, removes that one session (the table shrinks by one,
every other entry is unchanged, and — the table's keys being unique — the
id no longer resolves) and returns `true`. -/
theorem resumeSession_spec (m : SessionManager) (sid : Nat) (payload : Str) :
    (m.getSession sid = none → m.resumeSession sid payload = (false, m, none)) ∧
    (∀ s, m.getSession sid = some s →
      m.resumeSession sid payload
          = (true, { m with sessions := delKey m.sessions sid }, some payload) ∧
      (delKey m.sessions sid).length + 1 = m.sessions.length ∧
      (∀ j, j ≠ sid → getKey (delKey m.sessions sid) j = getKey m.sessions j) ∧
      ((m.sessions.map Prod.fst).Nodup →
        getKey (delKey m.sessions sid) sid = none)) := by
  constructor
  · intro h
    exact resumeSession_eq_of_none payload h
  · intro s h
    have h' : getKey m.sessions sid = some s := h
    refine ⟨resumeSession_eq_of_some payload h', ?_, ?_, ?_⟩
    · exact length_delKey_of_mem m.sessions sid (by rw [h']; rfl)
    · intro j hj
      exact getKey_delKey_ne m.sessions sid j (Ne.symm hj)
    · intro hnd
      exact getKey_delKey_self m.sessions sid hnd

/-- Witness for C9: an unknown id is a no-op returning `false`; the live id
`0` of `demoManager` is fulfilled with the payload and removed. -/
theorem resumeSession_spec_witness :
    SessionManager.resumeSession demoManager 5 "p".toList
        = (false, demoManager, none) ∧
    SessionManager.resumeSession demoManager 0 "p".toList
        = (true, { demoManager with sessions := [] }, some "p".toList) := by
  constructor
  · exact (resumeSession_spec demoManager 5 "p".toList).1 (by decide)
  · exact (((resumeSession_spec demoManager 0 "p".toList).2 demoSession
      (by decide)).1).trans (by decide)

/-! ## C6 — session-identifier ring -/

theorem idsOf_formula (inputs : List CreateInput) :
    ∀ m : SessionManager, m.counter < 1000 →
      idsOf m inputs
        = (List.range inputs.length).map (fun j => (m.counter + j) % 1000) := by
  induction inputs with
  | nil => intro m _; simp [idsOf]
  | cons i rest ih =>
    intro m hc
    have hm' : (applyCreate m i).2.counter = (m.counter + 1) % 1000 := rfl
    have hid : (applyCreate m i).1 = m.counter := rfl
    simp only [idsOf, hid]
    rw [ih (applyCreate m i).2 (by rw [hm']; exact Nat.mod_lt _ (by omega)), hm']
    rw [List.length_cons, List.range_succ_eq_map]
    simp only [List.map_cons, List.map_map]
    congr 1
    · rw [Nat.add_zero, Nat.mod_eq_of_lt hc]
    · apply List.map_congr_left
      intro j _
      show ((m.counter + 1) % 1000 + j) % 1000 = (m.counter + (j + 1)) % 1000
      rw [Nat.mod_add_mod]
      congr 1
      omega

/-- C6: starting from a fresh manager, the i-th sequential `createSession`
call (0-indexed) returns identifier `i % 1000` — in particular the
0-indexed 1000th call returns identifier `0` again — and a create that
lands on an identifier whose prior session is still in the table overwrites
that session with the new one instead of being rejected. -/
theorem createSession_ring_spec :
    (∀ inputs : List CreateInput,
      idsOf SessionManager.empty inputs
        = (List.range inputs.length).map (fun j => j % 1000)) ∧
    (∀ inputs : List CreateInput, 1000 < inputs.length →
      (idsOf SessionManager.empty inputs)[1000]? = some 0) ∧
    (∀ (m : SessionManager) (i : CreateInput) (old : SessionState),
      m.getSession m.counter = some old →
      (applyCreate m i).2.getSession m.counter
        = some { sessionId := m.counter, toolName := i.toolName
                 originalArgs := i.originalArgs, messages := i.messages
                 question := i.question, createdAt := i.now }) := by
  refine ⟨?_, ?_, ?_⟩
  · intro inputs
    have h := idsOf_formula inputs SessionManager.empty (by decide)
    simpa [SessionManager.empty] using h
  · intro inputs hlen
    have h := idsOf_formula inputs SessionManager.empty (by decide)
    rw [h, List.getElem?_map, List.getElem?_range hlen]
    simp [SessionManager.empty]
  · intro m i old _
    show getKey (setKey m.sessions m.counter _) m.counter = _
    rw [getKey_setKey_self]

/-- Witness for C6: two sequential calls hand out `0` then `1`, and a
manager whose counter has wrapped onto the still-live id `0` overwrites
`demoSession` there. -/
theorem createSession_ring_spec_witness :
    idsOf SessionManager.empty
        [{ toolName := "t".toList, originalArgs := [], messages := []
           question := "q".toList, now := 0 },
         { toolName := "u".toList, originalArgs := [], messages := []
           question := "r".toList, now := 1 }] = [0, 1] ∧
    SessionManager.getSession
        (applyCreate { counter := 0, sessions := [(0, demoSession)] }
          { toolName := "u".toList, originalArgs := [], messages := []
            question := "r".toList, now := 7 }).2 0
      = some { sessionId := 0, toolName := "u".toList, originalArgs := []
               messages := [], question := "r".toList, createdAt := 7 } := by
  constructor
  · exact (createSession_ring_spec.1
      [{ toolName := "t".toList, originalArgs := [], messages := []
         question := "q".toList, now := 0 },
       { toolName := "u".toList, originalArgs := [], messages := []
         question := "r".toList, now := 1 }]).trans (by decide)
  · exact createSession_ring_spec.2.2
      { counter := 0, sessions := [(0, demoSession)] }
      { toolName := "u".toList, originalArgs := [], messages := []
        question := "r".toList, now := 7 } demoSession (by decide)

/-! ## C2 — context-cache gating -/

theorem initEngineStep_eq_of_unavailable
    {rm : Str → Str → Option ProviderConfig → Except Str ModelHandle}
    {pv : List (Str × ProviderConfig)} {conns : Connections}
    {contexts : Contexts} {tc : ToolConfig}
    (hreq : hasRequiredServers conns tc.internal_tools = false) :
    initEngineStep rm pv conns contexts tc = contexts := by
  unfold initEngineStep
  rw [if_neg (by rw [hreq]; exact Bool.false_ne_true)]

theorem initEngineStep_eq_of_ok
    {rm : Str → Str → Option ProviderConfig → Except Str ModelHandle}
    {pv : List (Str × ProviderConfig)} {conns : Connections}
    {contexts : Contexts} {tc : ToolConfig} {ctx : ToolExecutionContext}
    (hreq : hasRequiredServers conns tc.internal_tools = true)
    (hb : buildContext rm pv conns tc = .ok ctx) :
    initEngineStep rm pv conns contexts tc = setKey contexts tc.name ctx := by
  unfold initEngineStep
  rw [if_pos hreq, hb]

theorem initEngineStep_eq_of_error
    {rm : Str → Str → Option ProviderConfig → Except Str ModelHandle}
    {pv : List (Str × ProviderConfig)} {conns : Connections}
    {contexts : Contexts} {tc : ToolConfig} {e : Str}
    (hreq : hasRequiredServers conns tc.internal_tools = true)
    (hb : buildContext rm pv conns tc = .error e) :
    initEngineStep rm pv conns contexts tc = contexts := by
  unfold initEngineStep
  rw [if_pos hreq, hb]

theorem hasContext_setKey (contexts : Contexts) (k n : Str)
    (ctx : ToolExecutionContext) :
    hasContext (setKey contexts k ctx) n = true
      ↔ (k = n ∨ hasContext contexts n = true) := by
  by_cases h : k = n
  · subst h
    simp [hasContext, getKey_setKey_self]
  · simp [hasContext, getKey_setKey_ne contexts k n ctx h, h]

theorem hasContext_initEngineAux
    (rm : Str → Str → Option ProviderConfig → Except Str ModelHandle)
    (pv : List (Str × ProviderConfig)) (conns : Connections) :
    ∀ (tools : List ToolConfig) (acc : Contexts) (n : Str),
      hasContext (initEngineAux rm pv conns tools acc) n = true ↔
        (hasContext acc n = true ∨
          ∃ tc ∈ tools, tc.name = n ∧
            hasRequiredServers conns tc.internal_tools = true ∧
            exceptIsOk (buildContext rm pv conns tc) = true) := by
  intro tools
  induction tools with
  | nil =>
    intro acc n
    simp [initEngineAux]
  | cons tc rest ih =>
    intro acc n
    simp only [initEngineAux]
    rw [ih]
    by_cases hreq : hasRequiredServers conns tc.internal_tools = true
    · cases hb : buildContext rm pv conns tc with
      | ok ctx =>
        rw [initEngineStep_eq_of_ok hreq hb, hasContext_setKey]
        simp only [List.mem_cons]
        constructor
        · rintro ((hn | ha) | ⟨tc', htc', rest'⟩)
          · exact Or.inr ⟨tc, Or.inl rfl, hn, hreq, by rw [hb]; rfl⟩
          · exact Or.inl ha
          · exact Or.inr ⟨tc', Or.inr htc', rest'⟩
        · rintro (ha | ⟨tc', htc' | htc', hn, hrest⟩)
          · exact Or.inl (Or.inr ha)
          · exact Or.inl (Or.inl (htc' ▸ hn))
          · exact Or.inr ⟨tc', htc', hn, hrest⟩
      | error e =>
        rw [initEngineStep_eq_of_error hreq hb]
        simp only [List.mem_cons]
        constructor
        · rintro (ha | ⟨tc', htc', rest'⟩)
          · exact Or.inl ha
          · exact Or.inr ⟨tc', Or.inr htc', rest'⟩
        · rintro (ha | ⟨tc', htc' | htc', hn, hr, hok⟩)
          · exact Or.inl ha
          · rw [htc', hb] at hok
            exact absurd hok (by simp [exceptIsOk])
          · exact Or.inr ⟨tc', htc', hn, hr, hok⟩
    · rw [initEngineStep_eq_of_unavailable (by simpa using hreq)]
      simp only [List.mem_cons]
      constructor
      · rintro (ha | ⟨tc', htc', rest'⟩)
        · exact Or.inl ha
        · exact Or.inr ⟨tc', Or.inr htc', rest'⟩
      · rintro (ha | ⟨tc', htc' | htc', hn, hr, hok⟩)
        · exact Or.inl ha
        · exact absurd (htc' ▸ hr) hreq
        · exact Or.inr ⟨tc', htc', hn, hr, hok⟩

/-- C2 counterexample: the claim as stated is false. Server `"s"` is
connected but never discovered tool `"b"`, so `demoTask`'s whitelisted pair
`("s", "b")` is unbacked; yet `hasRequiredServers` gates only on server
connectivity, `buildContext` silently skips the missing tool, and the task
still receives a context. -/
theorem contextOmissionClaim_counterexample : ¬ contextOmissionClaim := by
  intro h
  have hfalse := h resolveAlwaysOk [] [("s".toList, demoConn)] [demoTask]
    demoTask (by decide)
    ⟨("s".toList, ["b".toList]), by decide, "b".toList, by decide, by decide⟩
  exact absurd hfalse (by decide)

/-- C2 amended: a task definition receives a context (`hasContext` true for
its name) exactly when some configured task of that name has every
whitelisted *server* backed by a connected connection and its context build
succeeded; a task whose whitelist names an unavailable server — or whose
model resolution fails — is omitted while `initEngine` still completes
(it is a total function). A connected server's missing tool *name* does not
cause omission: the pair is skipped inside the context instead. -/
theorem hasContext_initEngine_iff
    (rm : Str → Str → Option ProviderConfig → Except Str ModelHandle)
    (pv : List (Str × ProviderConfig)) (conns : Connections)
    (tools : List ToolConfig) (n : Str) :
    hasContext (initEngine rm pv conns tools) n = true ↔
      ∃ tc ∈ tools, tc.name = n ∧
        hasRequiredServers conns tc.internal_tools = true ∧
        exceptIsOk (buildContext rm pv conns tc) = true := by
  unfold initEngine
  rw [hasContext_initEngineAux]
  simp [hasContext, getKey]

/-- Witness for the amended C2: `demoTask` (whitelisting the undiscovered
tool `"b"` on the connected server `"s"`) still receives a context. -/
theorem hasContext_initEngine_iff_witness :
    hasContext (initEngine resolveAlwaysOk [] [("s".toList, demoConn)]
      [demoTask]) "t".toList = true :=
  (hasContext_initEngine_iff resolveAlwaysOk [] [("s".toList, demoConn)]
    [demoTask] "t".toList).mpr
    ⟨demoTask, by decide, by decide, by decide, by decide⟩

/-! ## Equations for the staged engine operations -/

theorem execute_eq_of_none {contexts : Contexts} {mgr : SessionManager}
    {oracle : Nat → StepAction} {dur : Nat → Nat} {now : Nat}
    {toolName : Str} {args : List (Str × Str)}
    (h : getKey contexts toolName = none) :
    execute contexts mgr oracle dur now toolName args
      = (.error (.genericError ("No execution context for tool: ".toList ++ toolName)), mgr) := by
  unfold execute
  rw [h]

theorem execute_eq_of_some {contexts : Contexts} {mgr : SessionManager}
    {oracle : Nat → StepAction} {dur : Nat → Nat} {now : Nat}
    {toolName : Str} {args : List (Str × Str)} {context : ToolExecutionContext}
    (h : getKey contexts toolName = some context) :
    execute contexts mgr oracle dur now toolName args
      = executeWithMessages toolName args context
          [{ role := "user".toList, content := promptOfArgs args }]
          mgr oracle dur now := by
  unfold execute
  rw [h]

theorem resume_eq_of_none {contexts : Contexts} {mgr : SessionManager}
    {oracle : Nat → StepAction} {dur : Nat → Nat} {now sid : Nat}
    {payload : Str} (h : mgr.getSession sid = none) :
    resume contexts mgr oracle dur now sid payload
      = { result := .error (.genericError
            ("No session found with ID: ".toList ++ natStr sid))
          mgr := mgr, delivered := none } := by
  unfold resume
  rw [h]

theorem resume_eq_of_some {contexts : Contexts} {mgr : SessionManager}
    {oracle : Nat → StepAction} {dur : Nat → Nat} {now sid : Nat}
    {payload : Str} {s : SessionState} (h : mgr.getSession sid = some s) :
    resume contexts mgr oracle dur now sid payload
      = resumeWithSession contexts mgr oracle dur now sid payload s := by
  unfold resume
  rw [h]

theorem resumeWithSession_eq_of_noCtx {contexts : Contexts}
    {mgr : SessionManager} {oracle : Nat → StepAction} {dur : Nat → Nat}
    {now sid : Nat} {payload : Str} {s : SessionState}
    (h : getKey contexts s.toolName = none) :
    resumeWithSession contexts mgr oracle dur now sid payload s
      = { result := .error (.genericError
            ("No execution context for tool: ".toList ++ s.toolName))
          mgr := mgr, delivered := none } := by
  unfold resumeWithSession
  rw [h]

theorem resumeWithSession_eq_of_ctx {contexts : Contexts}
    {mgr : SessionManager} {oracle : Nat → StepAction} {dur : Nat → Nat}
    {now sid : Nat} {payload : Str} {s : SessionState}
    {ctx : ToolExecutionContext} (h : getKey contexts s.toolName = some ctx) :
    resumeWithSession contexts mgr oracle dur now sid payload s
      = { result := (executeWithMessages s.toolName s.originalArgs ctx
            (s.messages ++ [replyMessage s.question payload])
            (mgr.resumeSession sid payload).2.1 oracle dur now).1
          mgr := (executeWithMessages s.toolName s.originalArgs ctx
            (s.messages ++ [replyMessage s.question payload])
            (mgr.resumeSession sid payload).2.1 oracle dur now).2
          delivered := (mgr.resumeSession sid payload).2.2 } := by
  unfold resumeWithSession
  rw [h]

/-! ## C4 — resume reconstructs the history and removes the session -/

/-- C4: for a live session whose task has a cached context, `resume` runs
the shared loop driver on exactly the session's saved history followed by
the one synthetic message embedding the original question and the reply
(the payload is also what the completion handle is fulfilled with), and the
manager handed to the driver is the original one with that session removed
(with unique table keys, the id no longer resolves); `resume` on an
identifier with no live session fails with the no-session error. -/
theorem resume_spec (contexts : Contexts) (mgr : SessionManager)
    (oracle : Nat → StepAction) (dur : Nat → Nat) (now sid : Nat)
    (payload : Str) :
    (∀ s ctx, mgr.getSession sid = some s →
      getKey contexts s.toolName = some ctx →
      (resume contexts mgr oracle dur now sid payload
        = { result := (executeWithMessages s.toolName s.originalArgs ctx
              (s.messages ++ [replyMessage s.question payload])
              { mgr with sessions := delKey mgr.sessions sid } oracle dur now).1
            mgr := (executeWithMessages s.toolName s.originalArgs ctx
              (s.messages ++ [replyMessage s.question payload])
              { mgr with sessions := delKey mgr.sessions sid } oracle dur now).2
            delivered := some payload }) ∧
      ((mgr.sessions.map Prod.fst).Nodup →
        SessionManager.getSession
          { mgr with sessions := delKey mgr.sessions sid } sid = none)) ∧
    (mgr.getSession sid = none →
      resume contexts mgr oracle dur now sid payload
        = { result := .error (.genericError
              ("No session found with ID: ".toList ++ natStr sid))
            mgr := mgr, delivered := none }) := by
  constructor
  · intro s ctx hs hctx
    constructor
    · rw [resume_eq_of_some hs, resumeWithSession_eq_of_ctx hctx,
        resumeSession_eq_of_some payload hs]
    · intro hnd
      exact getKey_delKey_self mgr.sessions sid hnd
  · intro hs
    exact resume_eq_of_none hs

/-- Witness for C4: resuming `demoManager`'s live session `0` with a cached
context, and failing on the dead identifier `5`. -/
theorem resume_spec_witness :
    (resume [("t".toList, demoContext)] demoManager
        (fun _ => StepAction.final "done".toList) (fun _ => 0) 0 0 "p".toList
      = { result := (executeWithMessages "t".toList [] demoContext
            (demoSession.messages ++ [replyMessage "q".toList "p".toList])
            { demoManager with sessions := delKey demoManager.sessions 0 }
            (fun _ => StepAction.final "done".toList) (fun _ => 0) 0).1
          mgr := (executeWithMessages "t".toList [] demoContext
            (demoSession.messages ++ [replyMessage "q".toList "p".toList])
            { demoManager with sessions := delKey demoManager.sessions 0 }
            (fun _ => StepAction.final "done".toList) (fun _ => 0) 0).2
          delivered := some "p".toList }) ∧
    SessionManager.getSession
        { demoManager with sessions := delKey demoManager.sessions 0 } 0 = none ∧
    resume [("t".toList, demoContext)] demoManager
        (fun _ => StepAction.final "done".toList) (fun _ => 0) 0 5 "p".toList
      = { result := .error (.genericError
            ("No session found with ID: ".toList ++ natStr 5))
          mgr := demoManager, delivered := none } := by
  refine ⟨?_, ?_, ?_⟩
  · exact ((resume_spec [("t".toList, demoContext)] demoManager
      (fun _ => StepAction.final "done".toList) (fun _ => 0) 0 0 "p".toList).1
      demoSession demoContext rfl rfl).1
  · exact ((resume_spec [("t".toList, demoContext)] demoManager
      (fun _ => StepAction.final "done".toList) (fun _ => 0) 0 0 "p".toList).1
      demoSession demoContext rfl rfl).2 (by decide)
  · exact (resume_spec [("t".toList, demoContext)] demoManager
      (fun _ => StepAction.final "done".toList) (fun _ => 0) 0 5 "p".toList).2
      rfl

/-! ## C10 — resume with a live session but no context -/

/-- C10: when the session exists but its owning task has no cached context,
`resume` fails with the no-context error before touching the session table:
the manager is returned unchanged, nothing is delivered to the completion
handle, and the session is still live afterwards (so the resume can be
retried once a context exists). -/
theorem resume_noContext_spec (contexts : Contexts) (mgr : SessionManager)
    (oracle : Nat → StepAction) (dur : Nat → Nat) (now sid : Nat)
    (payload : Str) (s : SessionState)
    (hs : mgr.getSession sid = some s)
    (hc : getKey contexts s.toolName = none) :
    resume contexts mgr oracle dur now sid payload
      = { result := .error (.genericError
            ("No execution context for tool: ".toList ++ s.toolName))
          mgr := mgr, delivered := none } ∧
    (resume contexts mgr oracle dur now sid payload).mgr.getSession sid = some s := by
  have h1 : resume contexts mgr oracle dur now sid payload
      = { result := .error (.genericError
            ("No execution context for tool: ".toList ++ s.toolName))
          mgr := mgr, delivered := none } := by
    rw [resume_eq_of_some hs, resumeWithSession_eq_of_noCtx hc]
  exact ⟨h1, by rw [h1]; exact hs⟩

/-- Witness for C10: `demoManager`'s session `0` with an empty context
cache. -/
theorem resume_noContext_spec_witness :
    resume [] demoManager (fun _ => StepAction.final "done".toList)
        (fun _ => 0) 0 0 "p".toList
      = { result := .error (.genericError
            ("No execution context for tool: ".toList ++ "t".toList))
          mgr := demoManager, delivered := none } ∧
    (resume [] demoManager (fun _ => StepAction.final "done".toList)
        (fun _ => 0) 0 0 "p".toList).mgr.getSession 0 = some demoSession :=
  resume_noContext_spec [] demoManager (fun _ => StepAction.final "done".toList)
    (fun _ => 0) 0 0 "p".toList demoSession rfl rfl

/-! ## C5 — step bound and timeout classification -/

theorem runGen_success_le (oracle : Nat → StepAction) (dur : Nat → Nat)
    (allowCb : Bool) (history : List ModelMessage) :
    ∀ fuel done elapsed lastText text n,
      runGen oracle dur allowCb history fuel done elapsed lastText
        = .success text n → n ≤ done + fuel := by
  intro fuel
  induction fuel with
  | zero =>
    intro done elapsed lastText text n h
    simp only [runGen] at h
    rw [GenOutcome.success.injEq] at h
    obtain ⟨-, h2⟩ := h
    omega
  | succ fuel ih =>
    intro done elapsed lastText text n h
    simp only [runGen] at h
    by_cases ht : EXECUTION_TIMEOUT_MS ≤ elapsed
    · rw [if_pos ht] at h
      exact absurd h (by simp)
    · rw [if_neg ht] at h
      cases ho : oracle done with
      | final t =>
        rw [ho] at h
        simp only [runGenStep] at h
        rw [GenOutcome.success.injEq] at h
        obtain ⟨-, h2⟩ := h
        omega
      | callTool nm inp =>
        rw [ho] at h
        simp only [runGenStep] at h
        have := ih (done + 1) (elapsed + dur done) lastText text n h
        omega
      | askReply q =>
        rw [ho] at h
        simp only [runGenStep] at h
        by_cases hcb : allowCb = true
        · rw [if_pos hcb] at h
          exact absurd h (by simp)
        · rw [if_neg hcb] at h
          exact absurd h (by simp)
      | fail m =>
        rw [ho] at h
        simp only [runGenStep] at h
        exact absurd h (by simp)

theorem runGen_timeout (oracle : Nat → StepAction) (dur : Nat → Nat)
    (allowCb : Bool) (history : List ModelMessage) :
    ∀ (k fuel done elapsed : Nat) (lastText : Str), k < fuel →
      (∀ i, i < k → (oracle (done + i)).isCall = true) →
      EXECUTION_TIMEOUT_MS ≤ elapsed + sumDur dur done k →
      runGen oracle dur allowCb history fuel done elapsed lastText
        = .failure abortMessage := by
  intro k
  induction k with
  | zero =>
    intro fuel done elapsed lastText hk _ hto
    cases fuel with
    | zero => omega
    | succ f =>
      simp only [runGen]
      rw [if_pos (by simpa [sumDur] using hto)]
  | succ k ih =>
    intro fuel done elapsed lastText hk hcall hto
    cases fuel with
    | zero => omega
    | succ f =>
      simp only [runGen]
      by_cases he : EXECUTION_TIMEOUT_MS ≤ elapsed
      · rw [if_pos he]
      · rw [if_neg he]
        have hc0 : (oracle (done + 0)).isCall = true := hcall 0 (by omega)
        rw [Nat.add_zero] at hc0
        cases ho : oracle done with
        | callTool nm inp =>
          simp only [runGenStep]
          apply ih f (done + 1) (elapsed + dur done) lastText (by omega)
          · intro i hi
            have h2 := hcall (i + 1) (by omega)
            rw [show done + (i + 1) = done + 1 + i from by omega] at h2
            exact h2
          · have hs : sumDur dur done (k + 1)
                = dur done + sumDur dur (done + 1) k := rfl
            omega
        | final t =>
          rw [ho] at hc0
          exact absurd hc0 (by simp [StepAction.isCall])
        | askReply q =>
          rw [ho] at hc0
          exact absurd hc0 (by simp [StepAction.isCall])
        | fail m =>
          rw [ho] at hc0
          exact absurd hc0 (by simp [StepAction.isCall])

theorem executeWithMessages_complete_le (toolName : Str)
    (args : List (Str × Str)) (context : ToolExecutionContext)
    (messages : List ModelMessage) (mgr : SessionManager)
    (oracle : Nat → StepAction) (dur : Nat → Nat) (now : Nat)
    (text : Str) (n : Nat)
    (h : (executeWithMessages toolName args context messages mgr oracle dur now).1
      = .ok (.complete text n)) : n ≤ MAX_STEPS := by
  unfold executeWithMessages at h
  cases hg : generateTextModel oracle dur context.allowCallback messages with
  | success t m =>
    rw [hg] at h
    simp only [classifyGen] at h
    rw [Except.ok.injEq, ExecuteResult.complete.injEq] at h
    obtain ⟨-, h2⟩ := h
    unfold generateTextModel at hg
    have := runGen_success_le oracle dur context.allowCallback messages
      MAX_STEPS 0 0 ([] : Str) t m hg
    omega
  | callback q msgs =>
    rw [hg] at h
    simp only [classifyGen] at h
    simp at h
  | failure msg =>
    rw [hg] at h
    simp only [classifyGen] at h
    by_cases hc : (containsSub "Timeout".toList msg
        || containsSub "signal is aborted".toList msg) = true
    · rw [if_pos hc] at h
      simp at h
    · rw [if_neg hc] at h
      simp at h

theorem executeWithMessages_timeout (toolName : Str)
    (args : List (Str × Str)) (context : ToolExecutionContext)
    (messages : List ModelMessage) (mgr : SessionManager)
    (oracle : Nat → StepAction) (dur : Nat → Nat) (now : Nat) (k : Nat)
    (hk : k < MAX_STEPS)
    (hcall : ∀ i, i < k → (oracle i).isCall = true)
    (hto : EXECUTION_TIMEOUT_MS ≤ sumDur dur 0 k) :
    executeWithMessages toolName args context messages mgr oracle dur now
      = (.error (.toolExecutionError .EXECUTION_TIMEOUT
          ("Execution timed out: ".toList ++ abortMessage)
          [("toolName".toList, toolName)]), mgr) := by
  unfold executeWithMessages generateTextModel
  rw [runGen_timeout oracle dur context.allowCallback messages k MAX_STEPS 0 0
    ([] : Str) hk (fun i hi => by simpa using hcall i hi) (by simpa using hto)]
  simp only [classifyGen]
  rw [if_pos (by decide)]

/-- C5: a normally completed result of `execute` or `resume` always reports
a step count of at most `MAX_STEPS` (ten); and when the wall-clock deadline
expires during the bounded loop (the first `k < MAX_STEPS` steps are tool
calls whose durations reach `EXECUTION_TIMEOUT_MS`), both `execute` and
`resume` return the `EXECUTION_TIMEOUT` `ToolExecutionError` — a classified
error result, not a crash and not a normal completion. -/
theorem boundedLoop_spec :
    (∀ (contexts : Contexts) (mgr : SessionManager) (oracle : Nat → StepAction)
        (dur : Nat → Nat) (now : Nat) (toolName : Str)
        (args : List (Str × Str)) (text : Str) (n : Nat),
      (execute contexts mgr oracle dur now toolName args).1
          = .ok (.complete text n) → n ≤ MAX_STEPS) ∧
    (∀ (contexts : Contexts) (mgr : SessionManager) (oracle : Nat → StepAction)
        (dur : Nat → Nat) (now sid : Nat) (payload : Str) (text : Str) (n : Nat),
      (resume contexts mgr oracle dur now sid payload).result
          = .ok (.complete text n) → n ≤ MAX_STEPS) ∧
    (∀ (contexts : Contexts) (mgr : SessionManager) (oracle : Nat → StepAction)
        (dur : Nat → Nat) (now : Nat) (toolName : Str)
        (args : List (Str × Str)) (ctx : ToolExecutionContext) (k : Nat),
      getKey contexts toolName = some ctx → k < MAX_STEPS →
      (∀ i, i < k → (oracle i).isCall = true) →
      EXECUTION_TIMEOUT_MS ≤ sumDur dur 0 k →
      (execute contexts mgr oracle dur now toolName args).1
        = .error (.toolExecutionError .EXECUTION_TIMEOUT
            ("Execution timed out: ".toList ++ abortMessage)
            [("toolName".toList, toolName)])) ∧
    (∀ (contexts : Contexts) (mgr : SessionManager) (oracle : Nat → StepAction)
        (dur : Nat → Nat) (now sid : Nat) (payload : Str) (s : SessionState)
        (ctx : ToolExecutionContext) (k : Nat),
      mgr.getSession sid = some s → getKey contexts s.toolName = some ctx →
      k < MAX_STEPS →
      (∀ i, i < k → (oracle i).isCall = true) →
      EXECUTION_TIMEOUT_MS ≤ sumDur dur 0 k →
      (resume contexts mgr oracle dur now sid payload).result
        = .error (.toolExecutionError .EXECUTION_TIMEOUT
            ("Execution timed out: ".toList ++ abortMessage)
            [("toolName".toList, s.toolName)])) := by
  refine ⟨?_, ?_, ?_, ?_⟩
  · intro contexts mgr oracle dur now toolName args text n h
    cases hctx : getKey contexts toolName with
    | none =>
      rw [execute_eq_of_none hctx] at h
      simp at h
    | some ctx =>
      rw [execute_eq_of_some hctx] at h
      exact executeWithMessages_complete_le toolName args ctx
        [{ role := "user".toList, content := promptOfArgs args }]
        mgr oracle dur now text n h
  · intro contexts mgr oracle dur now sid payload text n h
    cases hs : mgr.getSession sid with
    | none =>
      rw [resume_eq_of_none hs] at h
      simp at h
    | some s =>
      rw [resume_eq_of_some hs] at h
      cases hctx : getKey contexts s.toolName with
      | none =>
        rw [resumeWithSession_eq_of_noCtx hctx] at h
        simp at h
      | some ctx =>
        rw [resumeWithSession_eq_of_ctx hctx] at h
        exact executeWithMessages_complete_le s.toolName s.originalArgs ctx
          (s.messages ++ [replyMessage s.question payload])
          (mgr.resumeSession sid payload).2.1 oracle dur now text n h
  · intro contexts mgr oracle dur now toolName args ctx k hctx hk hcall hto
    rw [execute_eq_of_some hctx,
      executeWithMessages_timeout toolName args ctx
        [{ role := "user".toList, content := promptOfArgs args }]
        mgr oracle dur now k hk hcall hto]
  · intro contexts mgr oracle dur now sid payload s ctx k hs hctx hk hcall hto
    rw [resume_eq_of_some hs, resumeWithSession_eq_of_ctx hctx,
      executeWithMessages_timeout s.toolName s.originalArgs ctx
        (s.messages ++ [replyMessage s.question payload])
        (mgr.resumeSession sid payload).2.1 oracle dur now k hk hcall hto]

/-- Witness for C5: a one-step completion reports `1 ≤ 10`, and a loop of
tool calls consuming the whole deadline surfaces as `EXECUTION_TIMEOUT`
from both `execute` and `resume`. -/
theorem boundedLoop_spec_witness :
    (1 : Nat) ≤ MAX_STEPS ∧
    (execute [("t".toList, demoContext)] SessionManager.empty
        (fun _ => StepAction.callTool [] []) (fun _ => 60000) 0
        "t".toList []).1
      = .error (.toolExecutionError .EXECUTION_TIMEOUT
          ("Execution timed out: ".toList ++ abortMessage)
          [("toolName".toList, "t".toList)]) ∧
    (resume [("t".toList, demoContext)] demoManager
        (fun _ => StepAction.callTool [] []) (fun _ => 60000) 0 0
        "p".toList).result
      = .error (.toolExecutionError .EXECUTION_TIMEOUT
          ("Execution timed out: ".toList ++ abortMessage)
          [("toolName".toList, "t".toList)]) := by
  refine ⟨?_, ?_, ?_⟩
  · exact boundedLoop_spec.1 [("t".toList, demoContext)] SessionManager.empty
      (fun _ => StepAction.final "done".toList) (fun _ => 0) 0 "t".toList []
      "done".toList 1 rfl
  · exact boundedLoop_spec.2.2.1 [("t".toList, demoContext)]
      SessionManager.empty (fun _ => StepAction.callTool [] [])
      (fun _ => 60000) 0 "t".toList [] demoContext 1 rfl (by decide)
      (fun i hi => by
        have h0 : i = 0 := by omega
        subst h0
        decide)
      (by decide)
  · exact boundedLoop_spec.2.2.2 [("t".toList, demoContext)] demoManager
      (fun _ => StepAction.callTool [] []) (fun _ => 60000) 0 0 "p".toList
      demoSession demoContext 1 rfl rfl (by decide)
      (fun i hi => by
        have h0 : i = 0 := by omega
        subst h0
        decide)
      (by decide)

end Slipsnisse
